import Mathlib

/-!
Shallow embedding of the two scripts of this repository:
`src/data_parser.py` (a CSV load / normalize / filter / aggregate pipeline)
and `src/reviewer.py` (a CLI that validates a source file and sends it to a
remote review service).

Python values that occur here are either text or integers, so a record (one
CSV row, a Python `dict`) is modelled as an association list from field name
to `Value`; `dict` lookup and `dict` item assignment are `getField` and
`setField` (assignment updates the value in place when the key is present,
keeping its position, else appends — exactly Python's insertion-order
semantics).  Python exceptions are modelled by `Except PyError`.
-/

inductive Value where
  | vStr (s : String)
  | vInt (n : Int)
deriving DecidableEq

/-- One CSV row / one Python dict: field name → value, in insertion order. -/
abbrev Record := List (String × Value)

/-- The Python exceptions the two scripts can raise. -/
inductive PyError where
  | keyError
  | valueError
  | typeError
  | zeroDivisionError
  | osError
deriving DecidableEq

instance {ε α : Type} [DecidableEq ε] [DecidableEq α] : DecidableEq (Except ε α) :=
  fun x y =>
    match x, y with
    | .error a, .error b =>
        if h : a = b then isTrue (by rw [h])
        else isFalse (by intro hh; cases hh; exact h rfl)
    | .ok a, .ok b =>
        if h : a = b then isTrue (by rw [h])
        else isFalse (by intro hh; cases hh; exact h rfl)
    | .error _, .ok _ => isFalse (by intro hh; cases hh)
    | .ok _, .error _ => isFalse (by intro hh; cases hh)

/-- Python `d[k]` lookup: first (= unique, for a real dict) binding of `k`;
`none` models `KeyError`. -/
def getField : Record → String → Option Value
  | [], _ => none
  | (k', v') :: rest, k => if k' = k then some v' else getField rest k

/-- Python `d[k] = v`: overwrite in place if `k` is present (keeping its
position), else append. -/
def setField : Record → String → Value → Record
  | [], k, v => [(k, v)]
  | (k', v') :: rest, k, v =>
      if k' = k then (k, v) :: rest else (k', v') :: setField rest k v

/-- The whitespace Python `str.strip()` and `int(str)` remove (ASCII part). -/
def pyIsSpace (c : Char) : Bool :=
  c = ' ' || c = '\t' || c = '\n' || c = '\r' || c = Char.ofNat 11 || c = Char.ofNat 12

/-- Python `str.strip()` on the character list. -/
def pyStripList (cs : List Char) : List Char :=
  ((cs.dropWhile pyIsSpace).reverse.dropWhile pyIsSpace).reverse

/-- Python `str.strip()`. -/
def pyStrip (s : String) : String :=
  String.mk (pyStripList s.data)

/-- Digit list to number, most significant first. -/
def digitsToNat (ds : List Char) : Nat :=
  ds.foldl (fun a c => a * 10 + (c.toNat - ('0').toNat)) 0

/-- Python `int(s)` for a string `s`: surrounding whitespace is ignored, then
an optional sign followed by a nonempty digit run; anything else raises
`ValueError` (`none`).  (Python's digit-grouping underscores are not used by
this repository's data and are not modelled.) -/
def parseIntString (s : String) : Option Int :=
  match pyStripList s.data with
  | [] => none
  | '-' :: rest =>
      if rest ≠ [] ∧ rest.all Char.isDigit then some (-(digitsToNat rest : Int)) else none
  | '+' :: rest =>
      if rest ≠ [] ∧ rest.all Char.isDigit then some (digitsToNat rest : Int) else none
  | cs =>
      if cs.all Char.isDigit then some (digitsToNat cs : Int) else none

/-- Python `int(v)` on a record value: an int is returned unchanged, a string
is parsed (else `ValueError`). -/
def pyInt : Value → Option Int
  | .vInt n => some n
  | .vStr s => parseIntString s

/-- One iteration of the `normalize_age` loop on one record:
`record["age"] = int(record["age"])`. -/
def normalizeAgeStep (r : Record) : Except PyError Record :=
  match getField r "age" with
  | none => .error .keyError
  | some v =>
      match pyInt v with
      | none => .error .valueError
      | some n => .ok (setField r "age" (.vInt n))

/-- The `normalize_age` loop with its in-place mutation made explicit: the
first component is the state of the record list when the loop exits (normally
or by exception), the second is `some e` when iteration raised `e`.  Records
before the first failing one have been converted; the failing record and all
later ones are untouched. -/
def normalizeAgeState : List Record → List Record × Option PyError
  | [] => ([], none)
  | r :: rs =>
      match normalizeAgeStep r with
      | .error e => (r :: rs, some e)
      | .ok r' =>
          let p := normalizeAgeState rs
          (r' :: p.1, p.2)

/-- `normalize_age(records)`: returns the (mutated) list on success, raises on
the first non-parseable `age`. -/
def normalize_age (records : List Record) : Except PyError (List Record) :=
  match normalizeAgeState records with
  | (st, none) => .ok st
  | (_, some e) => .error e

/-- `filter_by_country(records, country)`: builds a fresh list of the records
whose `country` field equals `country` (Python `==` between a non-string value
and a string is `False`, never an error); a missing `country` key raises
`KeyError`. -/
def filter_by_country : List Record → String → Except PyError (List Record)
  | [], _ => .ok []
  | r :: rs, c =>
      match getField r "country" with
      | none => .error .keyError
      | some v =>
          match filter_by_country rs c with
          | .error e => .error e
          | .ok rest => .ok (if v = Value.vStr c then r :: rest else rest)

/-- The `get_average_age` accumulation loop `total += record["age"]`: a
missing key raises `KeyError`, a string value raises `TypeError`
(`int + str`). -/
def sumAges : List Record → Except PyError Int
  | [] => .ok 0
  | r :: rs =>
      match getField r "age" with
      | none => .error .keyError
      | some (.vStr _) => .error .typeError
      | some (.vInt n) =>
          match sumAges rs with
          | .error e => .error e
          | .ok t => .ok (n + t)

/-- `get_average_age(records)`: sum of the `age` fields divided by the record
count; division is modelled exactly (over ℚ); the empty list raises
`ZeroDivisionError` at `total / len(records)`. -/
def get_average_age (records : List Record) : Except PyError ℚ :=
  match sumAges records with
  | .error e => .error e
  | .ok total =>
      if records.length = 0 then .error .zeroDivisionError
      else .ok ((total : ℚ) / (records.length : ℚ))

/-- The `age` values of the records that carry an integer `age`, in order
(the specification's "sum of ages"). -/
def agesOf (records : List Record) : List Int :=
  records.filterMap fun r =>
    match getField r "age" with
    | some (.vInt n) => some n
    | _ => none

/-- `read_csv(filepath)`: `f = open(filepath); reader = csv.DictReader(f);
for row in reader: rows.append(row); f.close(); return rows`.  The text
decoding done by `DictReader` is abstracted: the argument is the outcome of
iterating the reader (`.ok rows`, or `.error e` when reading/parsing raises).
The second component records whether `f.close()` executed before the function
exited: the source has no `with` / `try-finally`, so an exception raised in
the loop propagates past the `f.close()` line. -/
def read_csv (file : Except PyError (List Record)) :
    Except PyError (List Record) × Bool :=
  match file with
  | .error e => (.error e, false)
  | .ok rows => (.ok rows, true)

/-- `load_and_process(filepath, country)`: `read_csv`, then `normalize_age`,
then `filter_by_country`, each exception propagating unchanged. -/
def load_and_process (file : Except PyError (List Record)) (country : String) :
    Except PyError (List Record) :=
  match (read_csv file).1 with
  | .error e => .error e
  | .ok records =>
      match normalize_age records with
      | .error e => .error e
      | .ok records2 => filter_by_country records2 country

/-- A JSON document, as written by `json.dump` and re-read by `json.loads`
(the subset reachable from this repository's data: strings, integers, arrays,
objects). -/
inductive Json where
  | jStr (s : String)
  | jInt (n : Int)
  | jArr (xs : List Json)
  | jObj (fields : List (String × Json))

def valueToJson : Value → Json
  | .vStr s => .jStr s
  | .vInt n => .jInt n

def recordToJson (r : Record) : Json :=
  .jObj (r.map fun kv => (kv.1, valueToJson kv.2))

/-- `save_to_json(records, output_path)`: `json.dump(records, f)` writes the
JSON document of the record list to the file; the file is abstracted to the
document it holds. -/
def save_to_json (records : List Record) : Json :=
  .jArr (records.map recordToJson)

/-- `json.loads` turning one scalar document node back into a record value. -/
def loadsFieldValue : Json → Option Value
  | .jStr s => some (.vStr s)
  | .jInt n => some (.vInt n)
  | _ => none

/-- `json.loads` building a Python dict from a JSON object's fields: the dict
starts empty and each field is inserted in order, so a duplicate key keeps its
first position with the last value — Python dict-construction semantics. -/
def loadsRecordFields : Record → List (String × Json) → Option Record
  | acc, [] => some acc
  | acc, (k, jv) :: rest =>
      match loadsFieldValue jv with
      | none => none
      | some v => loadsRecordFields (setField acc k v) rest

def loadsRecord : Json → Option Record
  | .jObj fields => loadsRecordFields [] fields
  | _ => none

def loadsRecordList : List Json → Option (List Record)
  | [] => some []
  | j :: js =>
      match loadsRecord j with
      | none => none
      | some r =>
          match loadsRecordList js with
          | none => none
          | some rs => some (r :: rs)

/-- `parse_json(data)`: `json.loads(data)` on the text of a written document
returns the document's Python object; at the document level `json` round-trips
`dump`/`loads`, so this is the interpretation of the document as a record
list (the shape `save_to_json` always writes). -/
def parse_json (doc : Json) : Option (List Record) :=
  match doc with
  | .jArr xs => loadsRecordList xs
  | _ => none

/-!  Pipeline B: `src/reviewer.py`. -/

/-- What `read_source_file` observes about a path: whether it exists
(`Path.exists`), its extension (`Path.suffix`), and the outcome of
`Path.read_text` (`.error` models `OSError`, carrying the message). -/
structure PathInfo where
  pathExists : Bool
  suffix : String
  readResult : Except String String

/-- The four terminal failures of `read_source_file`, each printed with its
own message before `sys.exit(1)`. -/
inductive LoadError where
  | notFound
  | wrongType
  | readFailed
  | emptyFile
deriving DecidableEq

/-- The diagnostic printed for each `LoadError`, as in the source
(`p` the filepath, `sfx` the extension, `e` the `OSError` text). -/
def loadErrorMessage (p : String) (sfx : String) (e : String) : LoadError → String
  | .notFound => "Error: File not found — '" ++ p ++ "'"
  | .wrongType => "Error: Expected a .py file, got '" ++ sfx ++ "'"
  | .readFailed => "Error: Could not read file — " ++ e
  | .emptyFile => "Error: The file is empty."

/-- `read_source_file(filepath)`: checks existence, then the `.py` suffix,
then reads, then rejects content empty after `strip()`; otherwise returns the
contents verbatim.  Each failure is a distinct terminal error
(`sys.exit(1)` after its message). -/
def read_source_file (p : PathInfo) : Except LoadError String :=
  if p.pathExists = false then .error .notFound
  else if p.suffix ≠ ".py" then .error .wrongType
  else
    match p.readResult with
    | .error _ => .error .readFailed
    | .ok contents =>
        if pyStrip contents = "" then .error .emptyFile
        else .ok contents

/-- `run_code_review(source, filename)`: one blocking API call; the argument
is the remote service's outcome.  The second component records that the
network call was issued on this path (it always is, once the function runs). -/
def run_code_review (api : Except String String) : Except Unit String × Bool :=
  match api with
  | .error _ => (.error (), true)
  | .ok txt => (.ok txt, true)

/-- The observable outcome of one run of `main`: the process exit status,
whether the remote call was issued, whether the usage line was printed, and
which validation diagnostic (if any) was printed. -/
structure MainResult where
  exitCode : Nat
  networkCalled : Bool
  usagePrinted : Bool
  validationFailure : Option LoadError
deriving DecidableEq

/-- `main()`: arity check on `sys.argv` (program name plus exactly one
positional argument, `len(sys.argv) != 2` prints usage and exits 1), then
`read_source_file` (whose failures exit 1 before any network call), then
`run_code_review` (exit 1 on API error), then the review is printed and the
process exits 0.  `fs` gives the `PathInfo` of each path, `api` the remote
outcome. -/
def reviewer_main (argv : List String) (fs : String → PathInfo)
    (api : Except String String) : MainResult :=
  if argv.length ≠ 2 then
    { exitCode := 1, networkCalled := false, usagePrinted := true,
      validationFailure := none }
  else
    match read_source_file (fs (argv.getD 1 "")) with
    | .error e =>
        { exitCode := 1, networkCalled := false, usagePrinted := false,
          validationFailure := some e }
    | .ok _ =>
        match run_code_review api with
        | (.error _, called) =>
            { exitCode := 1, networkCalled := called, usagePrinted := false,
              validationFailure := none }
        | (.ok _, called) =>
            { exitCode := 0, networkCalled := called, usagePrinted := false,
              validationFailure := none }

/-!  Concrete rows used by the end-to-end example. -/

def rowA : Record :=
  [("name", Value.vStr "A"), ("age", Value.vStr "30"), ("country", Value.vStr "Kenya")]

def rowB : Record :=
  [("name", Value.vStr "B"), ("age", Value.vStr "40"), ("country", Value.vStr "Uganda")]

def rowANorm : Record :=
  [("name", Value.vStr "A"), ("age", Value.vInt 30), ("country", Value.vStr "Kenya")]

/-!  Helper lemmas. -/

theorem setField_of_getField {r : Record} {k : String} {v : Value}
    (h : getField r k = some v) : setField r k v = r := by
  induction r with
  | nil => simp [getField] at h
  | cons kv rest ih =>
      obtain ⟨k', v'⟩ := kv
      by_cases hk : k' = k
      · subst hk
        simp [getField] at h
        simp [setField, h]
      · simp [getField, hk] at h
        simp [setField, hk, ih h]

theorem normalizeAgeStep_intAge {r : Record} {n : Int}
    (h : getField r "age" = some (Value.vInt n)) : normalizeAgeStep r = .ok r := by
  simp [normalizeAgeStep, h, pyInt, setField_of_getField h]

theorem normalizeAgeState_intAges {rs : List Record}
    (h : ∀ r ∈ rs, ∃ n, getField r "age" = some (Value.vInt n)) :
    normalizeAgeState rs = (rs, none) := by
  induction rs with
  | nil => rfl
  | cons r rest ih =>
      obtain ⟨n, hn⟩ := h r (by simp)
      simp [normalizeAgeState, normalizeAgeStep_intAge hn,
        ih (fun x hx => h x (by simp [hx]))]

/-- What one loop iteration of `normalize_age` leaves in a record
(the record itself if the iteration raised). -/
def convertAge (r : Record) : Record :=
  match normalizeAgeStep r with
  | .ok r' => r'
  | .error _ => r

theorem normalizeAgeState_append_fail (rs₁ : List Record) (r : Record)
    (rs₂ : List Record) (e : PyError)
    (hok : ∀ x ∈ rs₁, ∃ x', normalizeAgeStep x = .ok x')
    (hbad : normalizeAgeStep r = .error e) :
    normalizeAgeState (rs₁ ++ r :: rs₂) = (rs₁.map convertAge ++ r :: rs₂, some e) := by
  induction rs₁ with
  | nil => simp [normalizeAgeState, hbad]
  | cons x rest ih =>
      obtain ⟨x', hx⟩ := hok x (by simp)
      have ih' := ih (fun y hy => hok y (by simp [hy]))
      simp [normalizeAgeState, hx, ih', convertAge]

theorem sumAges_intAges {rs : List Record}
    (h : ∀ r ∈ rs, ∃ n, getField r "age" = some (Value.vInt n)) :
    sumAges rs = .ok (agesOf rs).sum := by
  induction rs with
  | nil => rfl
  | cons r rest ih =>
      obtain ⟨n, hn⟩ := h r (by simp)
      have ih' := ih (fun x hx => h x (by simp [hx]))
      simp [sumAges, hn, ih', agesOf, List.filterMap_cons]

theorem filter_by_country_filter {rs : List Record} {c : String}
    (h : ∀ r ∈ rs, (getField r "country").isSome) :
    filter_by_country rs c =
      .ok (rs.filter fun r => decide (getField r "country" = some (Value.vStr c))) := by
  induction rs with
  | nil => rfl
  | cons r rest ih =>
      obtain ⟨v, hv⟩ := Option.isSome_iff_exists.mp (h r (by simp))
      have ih' := ih (fun x hx => h x (by simp [hx]))
      by_cases hveq : v = Value.vStr c
      · subst hveq
        simp [filter_by_country, hv, ih', List.filter_cons]
      · simp [filter_by_country, hv, ih', List.filter_cons, hveq]

/-!  Claim theorems. -/

/-- C1 counterexample: on the two-record input whose first `age` is `"30"`
and whose second is `"x"`, `normalize_age` raises `ValueError`, yet the input
list does not survive unchanged — its first record has already been converted
in place, so the operation does leave a partially converted state. -/
theorem normalize_age_partial_counterexample :
    (normalizeAgeState [[("age", Value.vStr "30")], [("age", Value.vStr "x")]]).2 =
      some PyError.valueError ∧
    (normalizeAgeState [[("age", Value.vStr "30")], [("age", Value.vStr "x")]]).1 ≠
      [[("age", Value.vStr "30")], [("age", Value.vStr "x")]] ∧
    (normalizeAgeState [[("age", Value.vStr "30")], [("age", Value.vStr "x")]]).1 =
      [[("age", Value.vInt 30)], [("age", Value.vStr "x")]] := by
  decide

/-- C1 (amended): when any record's `age` is not integer-parseable,
`normalize_age` raises the first iteration's error; the records before the
first failing one have been converted in place, and the failing record and
all later ones are left unchanged — partial application is observable on the
input. -/
theorem normalize_age_abort_partial (rs₁ : List Record) (r : Record)
    (rs₂ : List Record) (e : PyError)
    (hok : ∀ x ∈ rs₁, ∃ x', normalizeAgeStep x = .ok x')
    (hbad : normalizeAgeStep r = .error e) :
    normalize_age (rs₁ ++ r :: rs₂) = .error e ∧
    (normalizeAgeState (rs₁ ++ r :: rs₂)).1 = rs₁.map convertAge ++ r :: rs₂ := by
  have h := normalizeAgeState_append_fail rs₁ r rs₂ e hok hbad
  exact ⟨by simp [normalize_age, h], by simp [h]⟩

theorem normalize_age_abort_partial_witness :
    normalize_age ([[("age", Value.vStr "30")]] ++ [("age", Value.vStr "x")] :: []) =
      .error PyError.valueError ∧
    (normalizeAgeState ([[("age", Value.vStr "30")]] ++ [("age", Value.vStr "x")] :: [])).1 =
      [[("age", Value.vStr "30")]].map convertAge ++ [("age", Value.vStr "x")] :: [] :=
  normalize_age_abort_partial [[("age", Value.vStr "30")]] [("age", Value.vStr "x")] []
    PyError.valueError
    (by
      intro x hx
      simp at hx
      subst hx
      exact ⟨[("age", Value.vInt 30)], by decide⟩)
    (by decide)

/-- C9: `normalize_age` is idempotent on already-numeric input: when every
record's `age` is an integer, one application returns the input itself, so a
second application returns the same value. -/
theorem normalize_age_idempotent (records : List Record)
    (h : ∀ r ∈ records, ∃ n, getField r "age" = some (Value.vInt n)) :
    normalize_age records = .ok records ∧
    (normalize_age records).bind normalize_age = normalize_age records := by
  have hst := normalizeAgeState_intAges h
  constructor
  · simp [normalize_age, hst]
  · simp [normalize_age, hst, Except.bind]

theorem normalize_age_idempotent_witness :
    normalize_age [[("age", Value.vInt 5)]] = .ok [[("age", Value.vInt 5)]] ∧
    (normalize_age [[("age", Value.vInt 5)]]).bind normalize_age =
      normalize_age [[("age", Value.vInt 5)]] :=
  normalize_age_idempotent [[("age", Value.vInt 5)]]
    (by
      intro r hr
      simp at hr
      subst hr
      exact ⟨5, rfl⟩)

/-- C2: on a non-empty record list whose `age` fields are all integers,
`get_average_age` returns exactly the sum of the ages divided by the record
count (exact rational division); on the empty list it raises
`ZeroDivisionError` (it never returns 0). -/
theorem get_average_age_mean (records : List Record)
    (hne : records ≠ [])
    (h : ∀ r ∈ records, ∃ n, getField r "age" = some (Value.vInt n)) :
    get_average_age records =
      .ok (((agesOf records).sum : ℚ) / (records.length : ℚ)) ∧
    get_average_age [] = .error PyError.zeroDivisionError := by
  refine ⟨?_, rfl⟩
  have hs := sumAges_intAges h
  have hlen : records.length ≠ 0 := by simpa using hne
  simp [get_average_age, hs, hlen]

theorem get_average_age_mean_witness :
    get_average_age [[("age", Value.vInt 30)], [("age", Value.vInt 50)]] =
      .ok (((agesOf [[("age", Value.vInt 30)], [("age", Value.vInt 50)]]).sum : ℚ) /
        (([[("age", Value.vInt 30)], [("age", Value.vInt 50)]] : List Record).length : ℚ)) ∧
    get_average_age [] = .error PyError.zeroDivisionError :=
  get_average_age_mean [[("age", Value.vInt 30)], [("age", Value.vInt 50)]]
    (by decide)
    (by
      intro r hr
      simp at hr
      rcases hr with h1 | h1 <;> subst h1
      · exact ⟨30, rfl⟩
      · exact ⟨50, rfl⟩)

/-- C3: on a record list whose records all carry a `country` field,
`filter_by_country` returns exactly the records whose `country` equals the
target, as an order-preserving sublist of its input; it is a pure function
(the input list is untouched) and the empty result is an ordinary `.ok`. -/
theorem filter_by_country_spec (records : List Record) (country : String)
    (h : ∀ r ∈ records, (getField r "country").isSome) :
    ∃ out, filter_by_country records country = .ok out ∧
      out = records.filter
        (fun r => decide (getField r "country" = some (Value.vStr country))) ∧
      out.Sublist records ∧
      (∀ r ∈ out, getField r "country" = some (Value.vStr country)) ∧
      (∀ r ∈ records, getField r "country" = some (Value.vStr country) → r ∈ out) := by
  refine ⟨_, filter_by_country_filter h, rfl, List.filter_sublist _, ?_, ?_⟩
  · intro r hr
    have := List.of_mem_filter hr
    simpa using this
  · intro r hr hc
    exact List.mem_filter.mpr ⟨hr, by simp [hc]⟩

theorem filter_by_country_spec_witness :
    ∃ out, filter_by_country
        [[("country", Value.vStr "Kenya")], [("country", Value.vStr "Uganda")]] "Kenya" =
        .ok out ∧
      out = [[("country", Value.vStr "Kenya")], [("country", Value.vStr "Uganda")]].filter
        (fun r => decide (getField r "country" = some (Value.vStr "Kenya"))) ∧
      out.Sublist [[("country", Value.vStr "Kenya")], [("country", Value.vStr "Uganda")]] ∧
      (∀ r ∈ out, getField r "country" = some (Value.vStr "Kenya")) ∧
      (∀ r ∈ [[("country", Value.vStr "Kenya")], [("country", Value.vStr "Uganda")]],
        getField r "country" = some (Value.vStr "Kenya") → r ∈ out) :=
  filter_by_country_spec
    [[("country", Value.vStr "Kenya")], [("country", Value.vStr "Uganda")]] "Kenya"
    (by
      intro r hr
      simp at hr
      rcases hr with h1 | h1 <;> subst h1 <;> rfl)

/-- C4 counterexample: when reading/parsing the rows raises, `read_csv` exits
by that exception without executing `f.close()` — the handle it opened is not
released on this exit path. -/
theorem read_csv_leak_counterexample :
    (read_csv (Except.error PyError.osError)).2 = false := rfl

/-- C4 (amended): `read_csv` releases the handle it opens exactly on the
normal exit path — when iterating the reader completes, `f.close()` runs; when
an exception is raised while reading or parsing the rows, the close is
skipped and the handle is not released. -/
theorem read_csv_handle_release (file : Except PyError (List Record)) :
    (read_csv file).2 = true ↔ ∃ rows, file = .ok rows := by
  cases file <;> simp [read_csv]

/-- C5: `read_source_file` validates existence, then the `.py` extension,
then non-emptiness of the stripped content, in that order: a non-existent
path reports `notFound` whatever its extension, an existing path with a wrong
extension reports `wrongType` before any read, a whitespace-only file reports
`emptyFile`; the three diagnostics are pairwise distinct. -/
theorem read_source_file_validation_order (p : PathInfo) :
    (p.pathExists = false → read_source_file p = .error LoadError.notFound) ∧
    (p.pathExists = true → p.suffix ≠ ".py" →
      read_source_file p = .error LoadError.wrongType) ∧
    (∀ s, p.pathExists = true → p.suffix = ".py" → p.readResult = .ok s →
      pyStrip s = "" → read_source_file p = .error LoadError.emptyFile) ∧
    (LoadError.notFound ≠ LoadError.wrongType ∧
      LoadError.notFound ≠ LoadError.emptyFile ∧
      LoadError.wrongType ≠ LoadError.emptyFile) := by
  refine ⟨?_, ?_, ?_, by decide⟩
  · intro h
    simp [read_source_file, h]
  · intro h1 h2
    simp [read_source_file, h1, h2]
  · intro s h1 h2 h3 h4
    simp [read_source_file, h1, h2, h3, h4]

theorem read_source_file_validation_order_witness :
    read_source_file ⟨false, ".txt", Except.ok "x"⟩ = .error LoadError.notFound ∧
    read_source_file ⟨true, ".txt", Except.ok "x"⟩ = .error LoadError.wrongType ∧
    read_source_file ⟨true, ".py", Except.ok " \n "⟩ = .error LoadError.emptyFile :=
  ⟨(read_source_file_validation_order ⟨false, ".txt", Except.ok "x"⟩).1 rfl,
   (read_source_file_validation_order ⟨true, ".txt", Except.ok "x"⟩).2.1 rfl (by decide),
   (read_source_file_validation_order ⟨true, ".py", Except.ok " \n "⟩).2.2.1 " \n "
     rfl rfl rfl (by decide)⟩

/-- C6: with exactly one positional argument naming an existing file whose
extension is not `.py`, `main` exits with status 1 after the wrong-file-type
diagnostic and never issues the remote call; with any other arity it prints
the usage line and exits 1 without touching the filesystem or the network
(its outcome does not depend on them). -/
theorem main_wrong_type_and_arity :
    (∀ (prog fp : String) (fs : String → PathInfo) (api : Except String String),
      (fs fp).pathExists = true → (fs fp).suffix ≠ ".py" →
      reviewer_main [prog, fp] fs api =
        { exitCode := 1, networkCalled := false, usagePrinted := false,
          validationFailure := some LoadError.wrongType }) ∧
    (∀ (argv : List String) (fs fs' : String → PathInfo)
      (api api' : Except String String),
      argv.length ≠ 2 →
      reviewer_main argv fs api =
        { exitCode := 1, networkCalled := false, usagePrinted := true,
          validationFailure := none } ∧
      reviewer_main argv fs api = reviewer_main argv fs' api') := by
  constructor
  · intro prog fp fs api h2 h3
    have hrsf : read_source_file (fs fp) = .error .wrongType := by
      simp [read_source_file, h2, h3]
    simp [reviewer_main, hrsf]
  · intro argv fs fs' api api' h
    exact ⟨by simp [reviewer_main, h], by simp [reviewer_main, h]⟩

theorem main_wrong_type_and_arity_witness :
    reviewer_main ["review.py", "notes.txt"]
      (fun _ => ⟨true, ".txt", Except.ok "line1\nline2"⟩) (Except.ok "review") =
      { exitCode := 1, networkCalled := false, usagePrinted := false,
        validationFailure := some LoadError.wrongType } ∧
    reviewer_main ["review.py"]
      (fun _ => ⟨true, ".py", Except.ok "x"⟩) (Except.ok "review") =
      { exitCode := 1, networkCalled := false, usagePrinted := true,
        validationFailure := none } :=
  ⟨main_wrong_type_and_arity.1 "review.py" "notes.txt"
      (fun _ => ⟨true, ".txt", Except.ok "line1\nline2"⟩) (Except.ok "review")
      rfl (by decide),
   (main_wrong_type_and_arity.2 ["review.py"]
      (fun _ => ⟨true, ".py", Except.ok "x"⟩) (fun _ => ⟨true, ".py", Except.ok "x"⟩)
      (Except.ok "review") (Except.ok "review") (by decide)).1⟩

/-- C7: `load_and_process` is exactly Reader → Normalizer(`age`) →
Filter(`country`), the first failing stage's error propagating unchanged
(`Except.bind`); on the two example rows with target `"Kenya"` it returns the
single normalized Kenya row, whose average age is 30. -/
theorem load_and_process_pipeline :
    (∀ (file : Except PyError (List Record)) (country : String),
      load_and_process file country =
        ((read_csv file).1.bind fun records =>
          (normalize_age records).bind fun records2 =>
            filter_by_country records2 country)) ∧
    load_and_process (.ok [rowA, rowB]) "Kenya" = .ok [rowANorm] ∧
    get_average_age [rowANorm] = .ok 30 := by
  refine ⟨?_, by decide, ?_⟩
  · intro file country
    cases file with
    | error e => rfl
    | ok records =>
        cases h : normalize_age records with
        | error e => simp [load_and_process, read_csv, h, Except.bind]
        | ok r2 => simp [load_and_process, read_csv, h, Except.bind]
  · have h : sumAges [rowANorm] = .ok 30 := by decide
    simp [get_average_age, h]

/-!  Round-trip lemmas for C8. -/

theorem setField_not_mem {r : Record} {k : String} (v : Value)
    (h : k ∉ r.map Prod.fst) : setField r k v = r ++ [(k, v)] := by
  induction r with
  | nil => rfl
  | cons kv rest ih =>
      obtain ⟨k1, v1⟩ := kv
      simp only [List.map_cons, List.mem_cons, not_or] at h
      obtain ⟨h1, h2⟩ := h
      have h1' : ¬k1 = k := fun hh => h1 hh.symm
      simp [setField, h1', ih h2]

theorem loadsRecordFields_roundtrip (r : Record) :
    ∀ acc : Record, (r.map Prod.fst).Nodup →
    (∀ k ∈ r.map Prod.fst, k ∉ acc.map Prod.fst) →
    loadsRecordFields acc (r.map fun kv => (kv.1, valueToJson kv.2)) =
      some (acc ++ r) := by
  induction r with
  | nil => intro acc _ _; simp [loadsRecordFields]
  | cons kv rest ih =>
      intro acc hnd hdisj
      obtain ⟨k, v⟩ := kv
      have hval : loadsFieldValue (valueToJson v) = some v := by cases v <;> rfl
      simp only [List.map_cons, loadsRecordFields, hval]
      have hk : k ∉ acc.map Prod.fst := hdisj k (by simp)
      rw [setField_not_mem v hk]
      simp only [List.map_cons, List.nodup_cons] at hnd
      have hdisj' : ∀ k' ∈ rest.map Prod.fst, k' ∉ (acc ++ [(k, v)]).map Prod.fst := by
        intro k' hk'
        simp only [List.map_append, List.mem_append, List.map_cons, List.map_nil,
          List.mem_singleton, not_or]
        exact ⟨hdisj k' (by simp [hk']), fun hh => hnd.1 (hh ▸ hk')⟩
      rw [ih (acc ++ [(k, v)]) hnd.2 hdisj']
      simp

theorem loadsRecord_roundtrip (r : Record) (hnd : (r.map Prod.fst).Nodup) :
    loadsRecord (recordToJson r) = some r := by
  have h := loadsRecordFields_roundtrip r [] hnd (by simp)
  simpa [loadsRecord, recordToJson] using h

theorem loadsRecordList_roundtrip (records : List Record)
    (h : ∀ r ∈ records, (r.map Prod.fst).Nodup) :
    loadsRecordList (records.map recordToJson) = some records := by
  induction records with
  | nil => rfl
  | cons r rest ih =>
      simp [loadsRecordList, loadsRecord_roundtrip r (h r (by simp)),
        ih (fun x hx => h x (by simp [hx]))]

/-- C8: writing a record list with `save_to_json` and re-reading the written
document with the matching reader (`parse_json`) yields the original records,
field for field; the only requirement is the Python-dict invariant that each
record's keys are distinct.  (Integer values survive as integers in JSON, so
the "modulo type widening" allowance is not even needed.) -/
theorem save_to_json_roundtrip (records : List Record)
    (h : ∀ r ∈ records, (r.map Prod.fst).Nodup) :
    parse_json (save_to_json records) = some records := by
  simp [parse_json, save_to_json, loadsRecordList_roundtrip records h]

theorem save_to_json_roundtrip_witness :
    parse_json (save_to_json [rowA, rowB]) = some [rowA, rowB] :=
  save_to_json_roundtrip [rowA, rowB]
    (by
      intro r hr
      simp [rowA, rowB] at hr
      rcases hr with h1 | h1 <;> subst h1 <;> decide)

/-- C10: whenever `read_source_file` returns, it returns the file's contents
verbatim — stripping is applied only inside the emptiness check — so content
with surrounding whitespace passes validation and comes back untrimmed. -/
theorem read_source_file_verbatim (p : PathInfo) (s : String)
    (h1 : p.pathExists = true) (h2 : p.suffix = ".py")
    (h3 : p.readResult = .ok s) (h4 : pyStrip s ≠ "") :
    read_source_file p = .ok s := by
  simp [read_source_file, h1, h2, h3, h4]

theorem read_source_file_verbatim_witness :
    pyStrip "  x \n" ≠ "  x \n" ∧
    read_source_file ⟨true, ".py", Except.ok "  x \n"⟩ = .ok "  x \n" :=
  ⟨by decide,
   read_source_file_verbatim ⟨true, ".py", Except.ok "  x \n"⟩ "  x \n"
     rfl rfl rfl (by decide)⟩
